import Mathlib

/-!
Verification of the subscription-manager backend subscription routes
(`src/routes/subscriptions.js` in the repository, the large source file of
this repo): input validation (`validateSubscriptionInput`), query-parameter
parsing (`parseQueryParams`), the `GET /` list handler's owner scoping, the
`PUT /:id` update forwarding, and the `GET /analytics` aggregation
(monthly/yearly totals, upcoming renewals, category breakdown).

JavaScript numbers are embedded as `ℚ` (all constants appearing in the code
are exactly representable and the aggregation arithmetic stays well inside
the range where binary64 and exact rational arithmetic agree on the claims
checked here); `Date` values are embedded as integer milliseconds since the
epoch; JSON-ish request values as the inductive `JsVal`; request bodies as
finite partial maps `String → Option JsVal`.
-/

/-- A JavaScript value as it can reach the route handlers through a parsed
JSON body: a string, a finite number, a boolean, `null`, or (only after
sanitization) a `Date`, embedded as milliseconds since the epoch. -/
inductive JsVal where
  | str (s : String)
  | num (q : ℚ)
  | jsbool (b : Bool)
  | null
  | date (ms : ℤ)
deriving DecidableEq

/-- A request body (`req.body`): a partial map from property names to values.
`p k = none` embeds `data[k] === undefined`. -/
def Payload : Type := String → Option JsVal

/-- Property assignment `p[k] = v` on a body object. -/
def Payload.set (p : Payload) (k : String) (v : JsVal) : Payload :=
  fun k' => if k' = k then some v else p k'

/-- JavaScript truthiness of a defined value (`Boolean(v)`): the empty
string, `0`, `false` and `null` are falsy. -/
def jsTruthy : JsVal → Bool
  | .str s => s ≠ ""
  | .num q => q ≠ 0
  | .jsbool b => b
  | .null => false
  | .date _ => true

/-- Digits of a decimal numeral to the natural number they denote. -/
def digitsToNat (ds : List Char) : Nat :=
  ds.foldl (fun n c => n * 10 + (c.toNat - 48)) 0

/-- `parseFloat` on a string: skip leading whitespace, optional sign, then a
decimal significand (digits, optional point, digits), ignoring trailing
characters; `none` embeds `NaN`.  The host builtin additionally accepts
exponent suffixes and the words Infinity and -Infinity; no claim checked here
exercises those forms. -/
def parseFloatStr (s : String) : Option ℚ :=
  let cs := s.data.dropWhile fun c => c = ' ' ∨ c = '\t' ∨ c = '\n' ∨ c = '\r'
  let signed : Bool × List Char :=
    match cs with
    | '-' :: rest => (true, rest)
    | '+' :: rest => (false, rest)
    | _ => (false, cs)
  let intPart := signed.2.takeWhile Char.isDigit
  let afterInt := signed.2.dropWhile Char.isDigit
  let fracPart :=
    match afterInt with
    | '.' :: r => r.takeWhile Char.isDigit
    | _ => []
  if intPart.isEmpty ∧ fracPart.isEmpty then none
  else
    let mag : ℚ := (digitsToNat intPart : ℚ) + (digitsToNat fracPart : ℚ) / ((10 : ℚ) ^ fracPart.length)
    some (if signed.1 then -mag else mag)

/-- `parseFloat(v)`: the argument is coerced to a string first, so booleans
and `null` parse to `NaN`. -/
def jsParseFloat : JsVal → Option ℚ
  | .num q => some q
  | .str s => parseFloatStr s
  | _ => none

/-- Gregorian leap year. -/
def isLeapYear (y : ℤ) : Bool :=
  (y % 4 = 0 ∧ y % 100 ≠ 0) ∨ y % 400 = 0

/-- Length of a month of the Gregorian calendar. -/
def daysInMonth (y : ℤ) (m : Nat) : Nat :=
  if m = 2 then (if isLeapYear y then 29 else 28)
  else if m = 4 ∨ m = 6 ∨ m = 9 ∨ m = 11 then 30
  else 31

/-- Days from 1970-01-01 to the given civil date (positive years only, which
is all the ISO `YYYY-MM-DD` form below can produce). -/
def daysFromCivil (y : ℤ) (m d : Nat) : ℤ :=
  let y' : ℤ := if m ≤ 2 then y - 1 else y
  let era : ℤ := y' / 400
  let yoe : ℤ := y' - era * 400
  let mp : ℤ := (m + 9 : ℤ) % 12
  let doy : ℤ := (153 * mp + 2) / 5 + d - 1
  let doe : ℤ := yoe * 365 + yoe / 4 - yoe / 100 + doy
  era * 146097 + doe - 719468

/-- `new Date(string)` for the strict ISO date-only form `YYYY-MM-DD`,
returning milliseconds since the epoch, `none` for an invalid date.  The
host accepts further formats (date-times, RFC 2822); no claim checked here
exercises them. -/
def parseDateStr (s : String) : Option ℤ :=
  match s.data with
  | [y1, y2, y3, y4, '-', m1, m2, '-', d1, d2] =>
    if y1.isDigit ∧ y2.isDigit ∧ y3.isDigit ∧ y4.isDigit ∧
        m1.isDigit ∧ m2.isDigit ∧ d1.isDigit ∧ d2.isDigit then
      let y : ℤ := (digitsToNat [y1, y2, y3, y4] : ℤ)
      let m := digitsToNat [m1, m2]
      let d := digitsToNat [d1, d2]
      if 1 ≤ m ∧ m ≤ 12 ∧ 1 ≤ d ∧ d ≤ daysInMonth y m then
        some (daysFromCivil y m d * 86400000)
      else none
    else none
  | _ => none

/-- Truncation toward zero of a rational, as `ToIntegerOrInfinity` does to a
finite JavaScript number. -/
def ratTrunc (q : ℚ) : ℤ := if 0 ≤ q then ⌊q⌋ else ⌈q⌉

/-- `new Date(v).getTime()` with `none` embedding an invalid date: numbers
are clipped to ±8.64e15 ms and truncated, strings are parsed, `null` and
booleans are coerced to 0/1 ms by `ToNumber`. -/
def jsDateParse : JsVal → Option ℤ
  | .num q => if q ≤ 8640000000000000 ∧ -8640000000000000 ≤ q then some (ratTrunc q) else none
  | .str s => parseDateStr s
  | .jsbool b => some (if b then 1 else 0)
  | .null => some 0
  | .date ms => some ms

/-- `String.prototype.trim`: strip leading and trailing whitespace. -/
def jsTrim (s : String) : String :=
  ⟨((s.data.dropWhile Char.isWhitespace).reverse.dropWhile Char.isWhitespace).reverse⟩

/-- The result shape of `validateSubscriptionInput`. -/
structure ValidationResult where
  isValid : Bool
  errors : List String
  sanitizedData : Payload

/-- The required-field test of the `requiredFields.forEach` loop:
`!data[field] || (typeof data[field] === 'string' && data[field].trim() === '')`. -/
def requiredMissing : Option JsVal → Bool
  | none => true
  | some v => !jsTruthy v ||
      (match v with
       | .str s => jsTrim s = ""
       | _ => false)

/-- The shared shape of the serviceName / planType / category blocks: a
defined value must be a string; it is trimmed into the sanitized copy, then
checked non-empty and within `maxLen` characters.  Returns the errors the
block pushes and the updated sanitized object. -/
def strFieldCheck (key label : String) (maxLen : Nat) (data sanitized : Payload) :
    List String × Payload :=
  match data key with
  | none => ([], sanitized)
  | some (.str s) =>
    let t := jsTrim s
    ((if t.length < 1 then [label ++ " cannot be empty"] else []) ++
     (if t.length > maxLen then
        [label ++ " must not exceed " ++ toString maxLen ++ " characters"] else []),
     sanitized.set key (.str t))
  | some _ => ([label ++ " must be a string"], sanitized)

/-- The closed billing-cycle set of the validator. -/
def validCycles : List String := ["daily", "weekly", "monthly", "quarterly", "yearly"]

/-- The closed status set of the validator. -/
def validStatuses : List String := ["active", "inactive", "cancelled", "expired"]

/-- The closed payment-method set of the validator. -/
def validMethods : List String :=
  ["credit_card", "debit_card", "paypal", "bank_transfer", "apple_pay", "google_pay", "other"]

/-- The shared shape of the billingCycle / status / paymentMethod blocks: a
defined value must be (string-)equal to a member of the closed set, else one
error listing the allowed set (`Array.includes` uses strict equality, so a
non-string value never matches). -/
def enumCheckErrors (v : Option JsVal) (valid : List String) (label : String) : List String :=
  match v with
  | none => []
  | some (.str s) =>
    if valid.contains s then []
    else [label ++ " must be one of: " ++ String.intercalate ", " valid]
  | some _ => [label ++ " must be one of: " ++ String.intercalate ", " valid]

/-- The cost block: `parseFloat`, reject `NaN` or negative, reject over
999999.99, otherwise store the parsed number in the sanitized copy. -/
def costCheck (data sanitized : Payload) : List String × Payload :=
  match data "cost" with
  | none => ([], sanitized)
  | some v =>
    match jsParseFloat v with
    | none => (["Cost must be a positive number"], sanitized)
    | some c =>
      if c < 0 then (["Cost must be a positive number"], sanitized)
      else if c > 999999.99 then (["Cost must not exceed 999,999.99"], sanitized)
      else ([], sanitized.set "cost" (.num c))

/-- The nextBillingDate block: `new Date(value)` must be a valid date; the
parsed `Date` is stored in the sanitized copy. -/
def dateCheck (data sanitized : Payload) : List String × Payload :=
  match data "nextBillingDate" with
  | none => ([], sanitized)
  | some v =>
    match jsDateParse v with
    | none => (["Next billing date must be a valid date"], sanitized)
    | some ms => ([], sanitized.set "nextBillingDate" (.date ms))

/-- The autoRenewal block: a defined value must be strictly boolean. -/
def boolCheck (v : Option JsVal) : List String :=
  match v with
  | none => []
  | some (.jsbool _) => []
  | some _ => ["Auto renewal must be a boolean value"]

/-- `validateSubscriptionInput(data, isUpdate)` of the subscriptions route
file: `sanitizedData` starts as a shallow copy `{...data}` of the whole
input; on create the five required fields must be defined and truthy (and
not blank after trimming, for strings); each block then validates its field
when defined, pushing its errors in source order and updating the sanitized
copy; `isValid` is `errors.length === 0`. -/
def validateSubscriptionInput (data : Payload) (isUpdate : Bool) : ValidationResult :=
  let requiredFields : List String :=
    if isUpdate then [] else ["serviceName", "planType", "cost", "billingCycle", "nextBillingDate"]
  let reqErrs := requiredFields.filterMap fun f =>
    if requiredMissing (data f) then some (f ++ " is required") else none
  let r1 := strFieldCheck "serviceName" "Service name" 100 data data
  let r2 := strFieldCheck "planType" "Plan type" 50 data r1.2
  let r3 := costCheck data r2.2
  let e4 := enumCheckErrors (data "billingCycle") validCycles "Billing cycle"
  let r5 := dateCheck data r3.2
  let e6 := enumCheckErrors (data "status") validStatuses "Status"
  let r7 := strFieldCheck "category" "Category" 50 data r5.2
  let e8 := enumCheckErrors (data "paymentMethod") validMethods "Payment method"
  let e9 := boolCheck (data "autoRenewal")
  let errors := reqErrs ++ r1.1 ++ r2.1 ++ r3.1 ++ e4 ++ r5.1 ++ e6 ++ r7.1 ++ e8 ++ e9
  { isValid := errors.isEmpty, errors := errors, sanitizedData := r7.2 }

/-- `parseInt` (radix 10) on a string: skip leading whitespace, optional
sign, then leading decimal digits; `none` embeds `NaN`.  The host builtin
also auto-detects a `0x` prefix as hexadecimal; no claim checked here
exercises that form. -/
def jsParseInt (s : String) : Option ℤ :=
  let cs := s.data.dropWhile fun c => c = ' ' ∨ c = '\t' ∨ c = '\n' ∨ c = '\r'
  let signed : Bool × List Char :=
    match cs with
    | '-' :: rest => (true, rest)
    | '+' :: rest => (false, rest)
    | _ => (false, cs)
  let ds := signed.2.takeWhile Char.isDigit
  if ds.isEmpty then none
  else some (if signed.1 then -(digitsToNat ds : ℤ) else (digitsToNat ds : ℤ))

/-- `n || d` for an integer `n` that may be `NaN` (embedded as `none`):
`NaN` and `0` are falsy and give the default. -/
def jsOrElse (n : Option ℤ) (d : ℤ) : ℤ :=
  match n with
  | none => d
  | some 0 => d
  | some k => k

/-- The raw request query (`req.query`) of `GET /`: every parameter Express
delivers is a string, an absent parameter is `none`. -/
structure RawQuery where
  page : Option String := none
  limit : Option String := none
  status : Option String := none
  category : Option String := none
  billingCycle : Option String := none
  sortBy : Option String := none
  sortOrder : Option String := none
  search : Option String := none
deriving DecidableEq

/-- The `where` object `parseQueryParams` builds (plus the `userId` key the
`GET /` handler assigns afterwards): `none` fields were not set.  The
free-text block `where.OR = [serviceName/planType/category contains search]`
is carried as the one `search` field. -/
structure WhereClause where
  userId : Option String := none
  status : Option String := none
  category : Option String := none
  billingCycle : Option String := none
  search : Option String := none
deriving DecidableEq

/-- The descriptor `parseQueryParams` returns. -/
structure QueryDescriptor where
  page : ℤ
  limit : ℤ
  skip : ℤ
  whereClause : WhereClause
  orderBy : String × String
deriving DecidableEq

/-- A falsy-guarded filter assignment `if (x) where.f = x`: an empty string
is falsy and sets nothing. -/
def truthyFilter (v : Option String) : Option String :=
  v.bind fun s => if s = "" then none else some s

/-- `parseQueryParams(query)` of the subscriptions route file: destructuring
defaults `page = 1`, `limit = 10`, `sortBy = 'nextBillingDate'`,
`sortOrder = 'asc'`; `parsedPage = Math.max(1, parseInt(page) || 1)`;
`parsedLimit = Math.min(100, Math.max(1, parseInt(limit) || 10))`; sort
field and order validated against whitelists with fallback to the defaults;
status/category/billingCycle/search set on `where` only when truthy.  The
returned `where` has no `userId` key. -/
def parseQueryParams (query : RawQuery) : QueryDescriptor :=
  let pageNum : Option ℤ := match query.page with
    | none => some 1
    | some s => jsParseInt s
  let limitNum : Option ℤ := match query.limit with
    | none => some 10
    | some s => jsParseInt s
  let parsedPage : ℤ := max 1 (jsOrElse pageNum 1)
  let parsedLimit : ℤ := min 100 (max 1 (jsOrElse limitNum 10))
  let validSortFields : List String :=
    ["serviceName", "cost", "nextBillingDate", "createdAt", "updatedAt"]
  let validSortOrder : List String := ["asc", "desc"]
  let sortBy := query.sortBy.getD "nextBillingDate"
  let sortOrder := query.sortOrder.getD "asc"
  let finalSortBy := if validSortFields.contains sortBy then sortBy else "nextBillingDate"
  let finalSortOrder := if validSortOrder.contains sortOrder then sortOrder else "asc"
  { page := parsedPage
    limit := parsedLimit
    skip := (parsedPage - 1) * parsedLimit
    whereClause :=
      { userId := none
        status := truthyFilter query.status
        category := truthyFilter query.category
        billingCycle := truthyFilter query.billingCycle
        search := truthyFilter query.search }
    orderBy := (finalSortBy, finalSortOrder) }

/-- The `GET /` handler's query construction: `parseQueryParams(req.query)`
followed by the assignment `params.where.userId = userId`. -/
def getSubscriptionsParams (userId : String) (query : RawQuery) : QueryDescriptor :=
  let params := parseQueryParams query
  { params with whereClause := { params.whereClause with userId := some userId } }

/-- A stored subscription row as the analytics queries select it. -/
structure Subscription where
  id : String
  serviceName : String
  cost : ℚ
  billingCycle : String
  status : String
  category : Option String
  nextBillingDate : ℤ
deriving DecidableEq

/-- Modelled from the spec (§4.1 BillingNormalizer): the canonical
monthly-equivalent of a (cost, billing-cycle) pair, with the defensive 0 for
an unknown cycle.  The code paths below are compared against this table. -/
def monthlyEquivalent (cost : ℚ) (cycle : String) : ℚ :=
  match cycle with
  | "daily" => cost * 30
  | "weekly" => cost * 4.33
  | "monthly" => cost
  | "quarterly" => cost / 3
  | "yearly" => cost / 12
  | _ => 0

/-- The per-subscription contribution of the `monthlyTotal` reduce in
`GET /analytics`: each `case` returns `total + contribution`, the `default`
returns `total` unchanged (contribution 0). -/
def overviewCycleContribution (s : Subscription) : ℚ :=
  match s.billingCycle with
  | "daily" => s.cost * 30
  | "weekly" => s.cost * 4.33
  | "monthly" => s.cost
  | "quarterly" => s.cost / 3
  | "yearly" => s.cost / 12
  | _ => 0

/-- `monthlyTotal` of `GET /analytics`: the reduce over the user's
subscriptions filtered to `status === 'active'`. -/
def monthlyTotal (subs : List Subscription) : ℚ :=
  (subs.filter fun s => s.status == "active").foldl
    (fun total s => total + overviewCycleContribution s) 0

/-- `yearlyTotal = monthlyTotal * 12` of `GET /analytics`. -/
def yearlyTotal (subs : List Subscription) : ℚ := monthlyTotal subs * 12

/-- `Math.round(q)`: round half toward positive infinity. -/
def jsRound (q : ℚ) : ℤ := ⌊q + 1 / 2⌋

/-- `Math.round(q * 100) / 100`: the two-decimal rounding applied at the
point of output. -/
def round2 (q : ℚ) : ℚ := (jsRound (q * 100) : ℚ) / 100

/-- The `monthlyCost` switch of the categoryBreakdown reduce: `monthlyCost`
starts as `sub.cost` and the switch has no `monthly` case and no `default`,
so both a monthly and an unrecognized billing cycle leave the raw cost. -/
def catMonthlyCost (s : Subscription) : ℚ :=
  match s.billingCycle with
  | "daily" => s.cost * 30
  | "weekly" => s.cost * 4.33
  | "quarterly" => s.cost / 3
  | "yearly" => s.cost / 12
  | _ => s.cost

/-- `sub.category || 'other'`: `null` (a missing category) and the empty
string are falsy and fall back to the default bucket. -/
def catOrOther : Option String → String
  | none => "other"
  | some s => if s = "" then "other" else s

/-- One bucket of the `categoryBreakdown` reduce accumulator. -/
structure CatAcc where
  category : String
  count : Nat
  totalCost : ℚ
deriving DecidableEq

/-- One step of the `categoryBreakdown` reduce: create the bucket on first
encounter (JavaScript object keys keep insertion order for these non-index
string keys, embedded here as an ordered association list), then increment
its count and add the converted monthly cost. -/
def bumpCat (acc : List CatAcc) (cat : String) (mc : ℚ) : List CatAcc :=
  if acc.any fun e => e.category == cat then
    acc.map fun e =>
      if e.category == cat then { e with count := e.count + 1, totalCost := e.totalCost + mc }
      else e
  else acc ++ [{ category := cat, count := 1, totalCost := mc }]

/-- `categoryBreakdown` of `GET /analytics`: the reduce over the active
subscriptions, bucketed by `sub.category || 'other'`. -/
def categoryBreakdown (subs : List Subscription) : List CatAcc :=
  (subs.filter fun s => s.status == "active").foldl
    (fun acc s => bumpCat acc (catOrOther s.category) (catMonthlyCost s)) []

/-- One emitted `categoryBreakdown` entry of the response. -/
structure CatEntry where
  category : String
  count : Nat
  monthlyTotal : ℚ
deriving DecidableEq

/-- The emitted `categoryBreakdown`: `Object.entries(...)` mapped to
`{category, count, monthlyTotal: Math.round(totalCost*100)/100}` and sorted
by `(a, b) => b.monthlyTotal - a.monthlyTotal` — descending on the rounded
monthly total; `Array.prototype.sort` is stable, embedded as a stable merge
sort. -/
def analyticsCategoryBreakdown (subs : List Subscription) : List CatEntry :=
  ((categoryBreakdown subs).map fun g =>
    { category := g.category, count := g.count, monthlyTotal := round2 g.totalCost }).mergeSort
    fun a b => decide (b.monthlyTotal ≤ a.monthlyTotal)

/-- `thirtyDaysFromNow - now` in milliseconds: `30 * 24 * 60 * 60 * 1000`. -/
def upcomingWindowMs : ℤ := 30 * 24 * 60 * 60 * 1000

/-- The upcoming-renewals storage query of `GET /analytics`: the user's
subscriptions with `status: 'active'` and `nextBillingDate` between `now`
(`gte`, inclusive) and `now + 30 days` (`lte`, inclusive), ordered by
`nextBillingDate` ascending. -/
def upcomingRenewals (subs : List Subscription) (now : ℤ) : List Subscription :=
  (subs.filter fun s =>
      s.status == "active" && now ≤ s.nextBillingDate &&
        s.nextBillingDate ≤ now + upcomingWindowMs).mergeSort
    fun a b => decide (a.nextBillingDate ≤ b.nextBillingDate)

/-- `upcomingRenewalCosts`: the reduce summing the raw `cost` of the
upcoming renewals (not monthly-normalized). -/
def upcomingRenewalCosts (subs : List Subscription) (now : ℤ) : ℚ :=
  (upcomingRenewals subs now).foldl (fun total r => total + r.cost) 0

/-- The emitted `data.overview` object of `GET /analytics`.  The counts come
from the two count queries (total and `status: 'active'`); `totalSpent` is
the completed-transaction amount sum, `null` when there are none. -/
structure Overview where
  totalSubscriptions : Nat
  activeSubscriptions : Nat
  inactiveSubscriptions : ℤ
  monthlyTotal : ℚ
  yearlyTotal : ℚ
  totalSpent : ℚ
deriving DecidableEq

/-- `data.overview` as the handler emits it: `monthlyTotal` and
`yearlyTotal` rounded via `Math.round(x*100)/100`, `totalSpent` emitted as
`totalSpent._sum.amount || 0` with no rounding. -/
def analyticsOverview (subs : List Subscription) (totalSpentSum : Option ℚ) : Overview :=
  { totalSubscriptions := subs.length
    activeSubscriptions := (subs.filter fun s => s.status == "active").length
    inactiveSubscriptions :=
      (subs.length : ℤ) - ((subs.filter fun s => s.status == "active").length : ℤ)
    monthlyTotal := round2 (monthlyTotal subs)
    yearlyTotal := round2 (yearlyTotal subs)
    totalSpent :=
      match totalSpentSum with
      | none => 0
      | some a => if a == 0 then 0 else a }

/-- The emitted `data.upcomingRenewals` object of `GET /analytics`. -/
structure UpcomingOut where
  count : Nat
  totalCost : ℚ
  renewals : List Subscription
deriving DecidableEq

/-- `data.upcomingRenewals` as the handler emits it: `totalCost` is the raw
cost sum rounded via `Math.round(x*100)/100`. -/
def analyticsUpcoming (subs : List Subscription) (now : ℤ) : UpcomingOut :=
  { count := (upcomingRenewals subs now).length
    totalCost := round2 (upcomingRenewalCosts subs now)
    renewals := upcomingRenewals subs now }

/-- The `PUT /:id` handler's decision, abstracting the storage lookup to the
boolean result of the ownership check `findFirst({id, userId})`: 400 with
the itemized errors when validation fails, 404 when the subscription is
absent or not owned, otherwise `prisma.subscription.update` is called with
`data: sanitizedData` — the whole sanitized object, forwarded as-is. -/
inductive PutOutcome where
  | validationFailed (errors : List String)
  | notFound
  | update (data : Payload)

/-- The `PUT /:id` handler over the abstracted storage check. -/
def putHandler (subscriptionExists : Bool) (body : Payload) : PutOutcome :=
  let validation := validateSubscriptionInput body true
  if !validation.isValid then .validationFailed validation.errors
  else if !subscriptionExists then .notFound
  else .update validation.sanitizedData

/-! Analysis-side definitions used to state and prove properties of the
grouping fold, and concrete inputs used by the claims. -/

/-- The per-subscription (bucket key, converted monthly cost) pair the
categoryBreakdown reduce consumes. -/
def catPair (s : Subscription) : String × ℚ := (catOrOther s.category, catMonthlyCost s)

/-- How many pairs carry the given bucket key. -/
def cntCat (c : String) (ps : List (String × ℚ)) : Nat :=
  (ps.filter fun p => p.1 == c).length

/-- The summed monthly cost of the pairs carrying the given bucket key. -/
def sumCat (c : String) (ps : List (String × ℚ)) : ℚ :=
  ((ps.filter fun p => p.1 == c).map Prod.snd).sum

/-- The keys of a list in first-encounter order, each kept once. -/
def dedupFirst : List String → List String
  | [] => []
  | c :: cs => c :: dedupFirst (cs.filter fun d => !(d == c))
termination_by l => l.length
decreasing_by
  exact Nat.lt_succ_of_le (List.length_filter_le _ _)

/-- The intended reading of the grouping fold: one bucket per key in
first-encounter order, counting and summing that key's pairs. -/
def groupSpec (ps : List (String × ℚ)) : List CatAcc :=
  (dedupFirst (ps.map Prod.fst)).map fun c =>
    { category := c, count := cntCat c ps, totalCost := sumCat c ps }

/-- `{serviceName: "", cost: -1}` — the payload of the C7 accumulation test. -/
def payloadC7 : Payload := fun k =>
  if k = "serviceName" then some (.str "")
  else if k = "cost" then some (.num (-1))
  else none

/-- A create payload with all five required fields present and `cost: 0`. -/
def payloadZeroCost : Payload := fun k =>
  if k = "serviceName" then some (.str "Netflix")
  else if k = "planType" then some (.str "Premium")
  else if k = "cost" then some (.num 0)
  else if k = "billingCycle" then some (.str "monthly")
  else if k = "nextBillingDate" then some (.num 1735689600000)
  else none

/-- An update payload carrying keys outside the validated field set
(`userId`, `status`) and an arbitrary extra key. -/
def payloadExtraKeys : Payload := fun k =>
  if k = "serviceName" then some (.str "Spotify")
  else if k = "userId" then some (.str "someone-else")
  else if k = "status" then some (.str "active")
  else if k = "planOwner" then some (.num 5)
  else none

/-- One active monthly subscription of cost 15.99. -/
def subMonthly : Subscription :=
  { id := "s1", serviceName := "Netflix", cost := 15.99, billingCycle := "monthly",
    status := "active", category := some "streaming", nextBillingDate := 1735689600000 }

/-- One active yearly subscription of cost 120.00. -/
def subYearly : Subscription :=
  { id := "s2", serviceName := "Backup", cost := 120, billingCycle := "yearly",
    status := "active", category := some "storage", nextBillingDate := 1740000000000 }

/-- The two-subscription set of the C3 worked example. -/
def exampleSubs : List Subscription := [subMonthly, subYearly]

/-- An active subscription with an unrecognized billing cycle and cost 10. -/
def subBadCycle : Subscription :=
  { id := "s3", serviceName := "Oddity", cost := 10, billingCycle := "biweekly",
    status := "active", category := some "media", nextBillingDate := 1735689600000 }

/-- An active subscription whose next billing date is exactly `now = 0`. -/
def subAtNow : Subscription :=
  { id := "s4", serviceName := "EdgeNow", cost := 5, billingCycle := "monthly",
    status := "active", category := some "tools", nextBillingDate := 0 }

/-- An active subscription whose next billing date is `now + 31 days`. -/
def subAt31Days : Subscription :=
  { id := "s5", serviceName := "EdgeLater", cost := 7, billingCycle := "monthly",
    status := "active", category := some "tools", nextBillingDate := 31 * 24 * 60 * 60 * 1000 }

/-- Two active subscriptions in distinct categories with equal monthly
totals (a categoryBreakdown tie). -/
def tieSubs : List Subscription :=
  [{ id := "s6", serviceName := "MusicCo", cost := 10, billingCycle := "monthly",
     status := "active", category := some "music", nextBillingDate := 1735689600000 },
   { id := "s7", serviceName := "VideoCo", cost := 10, billingCycle := "monthly",
     status := "active", category := some "video", nextBillingDate := 1735689600000 }]

/-! Helper lemmas. -/

theorem Payload.set_ne (p : Payload) (k : String) (v : JsVal) (k' : String) (h : k' ≠ k) :
    p.set k v k' = p k' := if_neg h

theorem strFieldCheck_frame (key label : String) (n : Nat) (data s : Payload) (k : String)
    (h : k ≠ key) : (strFieldCheck key label n data s).2 k = s k := by
  unfold strFieldCheck
  cases data key with
  | none => rfl
  | some v => cases v <;> simp [Payload.set, h]

theorem costCheck_frame (data s : Payload) (k : String) (h : k ≠ "cost") :
    (costCheck data s).2 k = s k := by
  unfold costCheck
  cases data "cost" with
  | none => rfl
  | some v =>
    cases hpf : jsParseFloat v with
    | none => simp [hpf]
    | some c =>
      simp only [hpf]
      by_cases h1 : c < 0
      · simp [h1]
      · by_cases h2 : c > 999999.99
        · simp [h1, h2]
        · simp [h1, h2, Payload.set, h]

theorem dateCheck_frame (data s : Payload) (k : String) (h : k ≠ "nextBillingDate") :
    (dateCheck data s).2 k = s k := by
  unfold dateCheck
  cases data "nextBillingDate" with
  | none => rfl
  | some v =>
    cases hdp : jsDateParse v with
    | none => simp [hdp]
    | some ms => simp [hdp, Payload.set, h]

theorem validate_isValid_eq (data : Payload) (isUpdate : Bool) :
    (validateSubscriptionInput data isUpdate).isValid =
      (validateSubscriptionInput data isUpdate).errors.isEmpty := rfl

/-! The claims. -/

/-- C7: `validateSubscriptionInput` is a total function returning a
structured result (it cannot raise); `isValid` is true exactly when the
accumulated `errors` list is empty; and validation does not stop at the
first failure: on `{serviceName: "", cost: -1}` (create) it reports all four
missing required fields plus the empty-service-name and negative-cost rule
violations — in particular at least two distinct error messages. -/
theorem claim_C7 :
    (∀ (data : Payload) (isUpdate : Bool),
      (validateSubscriptionInput data isUpdate).isValid = true ↔
        (validateSubscriptionInput data isUpdate).errors = []) ∧
    (validateSubscriptionInput payloadC7 false).errors =
      ["serviceName is required", "planType is required", "billingCycle is required",
       "nextBillingDate is required", "Service name cannot be empty",
       "Cost must be a positive number"] ∧
    "Service name cannot be empty" ∈ (validateSubscriptionInput payloadC7 false).errors ∧
    "Cost must be a positive number" ∈ (validateSubscriptionInput payloadC7 false).errors ∧
    ("Service name cannot be empty" : String) ≠ "Cost must be a positive number" ∧
    (validateSubscriptionInput payloadC7 false).isValid = false := by
  have herr : (validateSubscriptionInput payloadC7 false).errors =
      ["serviceName is required", "planType is required", "billingCycle is required",
       "nextBillingDate is required", "Service name cannot be empty",
       "Cost must be a positive number"] := by
    simp [validateSubscriptionInput, payloadC7, requiredMissing, jsTruthy, strFieldCheck,
      costCheck, dateCheck, boolCheck, enumCheckErrors, jsParseFloat, jsDateParse,
      show jsTrim "" = "" from rfl]
  refine ⟨fun data isUpdate => ?_, herr, ?_, ?_, by decide, ?_⟩
  · rw [validate_isValid_eq]
    exact List.isEmpty_iff
  · rw [herr]; decide
  · rw [herr]; decide
  · rw [validate_isValid_eq, herr]; decide

/-- C8: the claim is right and the code has a falsy-zero slip: on create, a
payload with all five required fields present and `cost: 0` is rejected,
because the required-field test `!data[field]` treats the number 0 as
missing; the cost rule itself accepts 0 (the same payload passes as an
update, where no required-field check runs), so the sole failure is the
spurious `cost is required`. -/
theorem claim_C8 :
    (validateSubscriptionInput payloadZeroCost false).errors = ["cost is required"] ∧
    (validateSubscriptionInput payloadZeroCost false).isValid = false ∧
    (validateSubscriptionInput payloadZeroCost true).errors = [] ∧
    (validateSubscriptionInput payloadZeroCost true).isValid = true := by
  have h0 : (validateSubscriptionInput payloadZeroCost false).errors = ["cost is required"] := by
    simp [validateSubscriptionInput, payloadZeroCost, requiredMissing, jsTruthy, strFieldCheck,
      costCheck, dateCheck, boolCheck, enumCheckErrors, jsParseFloat, jsDateParse, validCycles,
      ratTrunc, (by norm_num : ¬((999999.99 : ℚ) < 0)),
      show jsTrim "Netflix" = "Netflix" from rfl, show jsTrim "Premium" = "Premium" from rfl,
      show jsTrim "monthly" = "monthly" from rfl]
    decide
  have h1 : (validateSubscriptionInput payloadZeroCost true).errors = [] := by
    simp [validateSubscriptionInput, payloadZeroCost, requiredMissing, jsTruthy, strFieldCheck,
      costCheck, dateCheck, boolCheck, enumCheckErrors, jsParseFloat, jsDateParse, validCycles,
      ratTrunc, (by norm_num : ¬((999999.99 : ℚ) < 0)),
      show jsTrim "Netflix" = "Netflix" from rfl, show jsTrim "Premium" = "Premium" from rfl,
      show jsTrim "monthly" = "monthly" from rfl]
    decide
  refine ⟨h0, ?_, h1, ?_⟩
  · rw [validate_isValid_eq, h0]; decide
  · rw [validate_isValid_eq, h1]; decide

/-- C9: `parseQueryParams` is total (it cannot throw on malformed paging
input); for every raw query the resolved page is at least 1 and the
resolved limit lies in [1, 100]; `{page: "-5"}` resolves to page 1, a
non-numeric page resolves to 1, `{limit: "500"}` is clamped to 100, and a
non-numeric limit falls back to the default 10. -/
theorem claim_C9 :
    (∀ query : RawQuery,
      1 ≤ (parseQueryParams query).page ∧
      1 ≤ (parseQueryParams query).limit ∧ (parseQueryParams query).limit ≤ 100) ∧
    (parseQueryParams { page := some "-5" }).page = 1 ∧
    (parseQueryParams { page := some "abc" }).page = 1 ∧
    (parseQueryParams { limit := some "500" }).limit = 100 ∧
    (parseQueryParams { limit := some "abc" }).limit = 10 := by
  refine ⟨fun query => ?_, by decide, by decide, by decide, by decide⟩
  simp only [parseQueryParams]
  omega

/-- C1 (amended): the owner-scoping predicate `userId = requester` is
applied, but by the `GET /` route handler after `parseQueryParams` returns
(`params.where.userId = userId`), not by the planner itself: the planner's
`where` carries no `userId` predicate, and the handler's assignment adds it
while preserving every filter (status, category, billingCycle, search),
ANDing owner scoping with them, and the paging/sort fields. -/
theorem claim_C1 :
    ∀ (userId : String) (query : RawQuery),
      (parseQueryParams query).whereClause.userId = none ∧
      (getSubscriptionsParams userId query).whereClause.userId = some userId ∧
      (getSubscriptionsParams userId query).whereClause.status =
        (parseQueryParams query).whereClause.status ∧
      (getSubscriptionsParams userId query).whereClause.category =
        (parseQueryParams query).whereClause.category ∧
      (getSubscriptionsParams userId query).whereClause.billingCycle =
        (parseQueryParams query).whereClause.billingCycle ∧
      (getSubscriptionsParams userId query).whereClause.search =
        (parseQueryParams query).whereClause.search ∧
      (getSubscriptionsParams userId query).page = (parseQueryParams query).page ∧
      (getSubscriptionsParams userId query).limit = (parseQueryParams query).limit ∧
      (getSubscriptionsParams userId query).skip = (parseQueryParams query).skip ∧
      (getSubscriptionsParams userId query).orderBy = (parseQueryParams query).orderBy :=
  fun _ _ => ⟨rfl, rfl, rfl, rfl, rfl, rfl, rfl, rfl, rfl, rfl⟩

/-- C1 counterexample: the descriptor `parseQueryParams` itself returns
contains no owner-scoping predicate at all — its `where.userId` is `none`,
so in particular it is not `userId = "user-1"` for requester "user-1". -/
theorem claim_C1_counterexample :
    (parseQueryParams {}).whereClause.userId = none ∧
    (parseQueryParams {}).whereClause.userId ≠ some "user-1" := by
  exact ⟨rfl, by decide⟩

/-- C10: `sanitizedData` starts as the shallow copy `{...data}` and only the
five sanitized fields (serviceName, planType, cost, nextBillingDate,
category) are ever rewritten, so every other key — `userId`, `status`,
arbitrary extra keys — reaches `sanitizedData` unchanged for either value of
`isUpdate`; and when update validation passes, the `PUT /:id` handler calls
the storage update with exactly that `sanitizedData` object. -/
theorem claim_C10 :
    (∀ (data : Payload) (isUpdate : Bool) (k : String),
      k ∉ ["serviceName", "planType", "cost", "nextBillingDate", "category"] →
      (validateSubscriptionInput data isUpdate).sanitizedData k = data k) ∧
    (∀ body : Payload,
      (validateSubscriptionInput body true).isValid = true →
      putHandler true body = .update (validateSubscriptionInput body true).sanitizedData) := by
  constructor
  · intro data isUpdate k hk
    simp only [List.mem_cons, List.not_mem_nil, or_false, not_or] at hk
    obtain ⟨h1, h2, h3, h4, h5⟩ := hk
    show (strFieldCheck "category" "Category" 50 data
      (dateCheck data (costCheck data (strFieldCheck "planType" "Plan type" 50 data
        (strFieldCheck "serviceName" "Service name" 100 data data).2).2).2).2).2 k = data k
    rw [strFieldCheck_frame _ _ _ _ _ _ h5, dateCheck_frame _ _ _ h4,
      costCheck_frame _ _ _ h3, strFieldCheck_frame _ _ _ _ _ _ h2,
      strFieldCheck_frame _ _ _ _ _ _ h1]
  · intro body hv
    simp [putHandler, hv]

/-- C10 witness: a concrete update payload carrying `userId`, `status` and
an arbitrary extra key: each passes through `sanitizedData` unchanged, and
the handler forwards the whole sanitized object to the storage update. -/
theorem claim_C10_witness :
    (("userId" : String) ∉ ["serviceName", "planType", "cost", "nextBillingDate", "category"]) ∧
    (validateSubscriptionInput payloadExtraKeys true).sanitizedData "userId" =
      payloadExtraKeys "userId" ∧
    (validateSubscriptionInput payloadExtraKeys true).sanitizedData "status" =
      payloadExtraKeys "status" ∧
    (validateSubscriptionInput payloadExtraKeys true).sanitizedData "planOwner" =
      payloadExtraKeys "planOwner" ∧
    ((validateSubscriptionInput payloadExtraKeys true).isValid = true) ∧
    putHandler true payloadExtraKeys =
      .update (validateSubscriptionInput payloadExtraKeys true).sanitizedData := by
  have hv : (validateSubscriptionInput payloadExtraKeys true).isValid = true := by
    rw [validate_isValid_eq]
    simp [validateSubscriptionInput, payloadExtraKeys, requiredMissing, jsTruthy, strFieldCheck,
      costCheck, dateCheck, boolCheck, enumCheckErrors, jsParseFloat, jsDateParse, validStatuses,
      show jsTrim "Spotify" = "Spotify" from rfl]
    decide
  exact ⟨by decide,
    claim_C10.1 payloadExtraKeys true "userId" (by decide),
    claim_C10.1 payloadExtraKeys true "status" (by decide),
    claim_C10.1 payloadExtraKeys true "planOwner" (by decide),
    hv,
    claim_C10.2 payloadExtraKeys hv⟩

theorem foldl_add_map {α : Type} (f : α → ℚ) (l : List α) (init : ℚ) :
    l.foldl (fun t x => t + f x) init = init + (l.map f).sum := by
  induction l generalizing init with
  | nil => simp
  | cons a l ih => simp [ih, add_assoc]

theorem monthlyTotal_eq_sum (subs : List Subscription) :
    monthlyTotal subs = ((subs.filter fun s => s.status == "active").map
      fun s => monthlyEquivalent s.cost s.billingCycle).sum := by
  unfold monthlyTotal
  rw [foldl_add_map]
  simp only [zero_add]
  rfl

theorem monthlyEquivalent_unknown (c : ℚ) (cy : String) (h : cy ∉ validCycles) :
    monthlyEquivalent c cy = 0 := by
  simp only [validCycles, List.mem_cons, List.not_mem_nil, or_false] at h
  push_neg at h
  obtain ⟨h1, h2, h3, h4, h5⟩ := h
  unfold monthlyEquivalent
  split <;> simp_all

theorem catMonthlyCost_unknown (s : Subscription) (h : s.billingCycle ∉ validCycles) :
    catMonthlyCost s = s.cost := by
  simp only [validCycles, List.mem_cons, List.not_mem_nil, or_false] at h
  push_neg at h
  obtain ⟨h1, h2, h3, h4, h5⟩ := h
  unfold catMonthlyCost
  split <;> simp_all

theorem catMonthlyCost_known (s : Subscription) (h : s.billingCycle ∈ validCycles) :
    catMonthlyCost s = monthlyEquivalent s.cost s.billingCycle := by
  simp only [validCycles, List.mem_cons, List.not_mem_nil, or_false] at h
  rcases h with h | h | h | h | h <;> simp [catMonthlyCost, monthlyEquivalent, h]

/-- C2 (amended): in the overview `monthlyTotal` path the contribution of a
cost-C subscription is exactly the spec table — C×30 daily, C×4.33 weekly,
C×1 monthly, C÷3 quarterly, C÷12 yearly, 0 for an unrecognized cycle; the
categoryBreakdown path agrees on the five recognized cycles but, because its
switch has no default, contributes the raw cost C (not 0) for an
unrecognized billingCycle. -/
theorem claim_C2 :
    (∀ c : ℚ,
      monthlyEquivalent c "daily" = c * 30 ∧ monthlyEquivalent c "weekly" = c * 4.33 ∧
      monthlyEquivalent c "monthly" = c ∧ monthlyEquivalent c "quarterly" = c / 3 ∧
      monthlyEquivalent c "yearly" = c / 12) ∧
    (∀ s : Subscription,
      overviewCycleContribution s = monthlyEquivalent s.cost s.billingCycle ∧
      (if s.billingCycle ∈ validCycles then
        catMonthlyCost s = monthlyEquivalent s.cost s.billingCycle
      else catMonthlyCost s = s.cost ∧ monthlyEquivalent s.cost s.billingCycle = 0) ∧
      monthlyTotal [s] =
        (if s.status == "active" then monthlyEquivalent s.cost s.billingCycle else 0) ∧
      categoryBreakdown [s] =
        (if s.status == "active" then
          [{ category := catOrOther s.category, count := 1, totalCost := catMonthlyCost s }]
        else [])) := by
  refine ⟨fun c => ⟨rfl, rfl, rfl, rfl, rfl⟩, fun s => ⟨rfl, ?_, ?_, ?_⟩⟩
  · by_cases h : s.billingCycle ∈ validCycles
    · simp only [h, if_true]
      exact catMonthlyCost_known s h
    · simp only [h, if_false]
      exact ⟨catMonthlyCost_unknown s h, monthlyEquivalent_unknown s.cost s.billingCycle h⟩
  · by_cases h : s.status == "active" <;>
      simp [monthlyTotal_eq_sum, List.filter_cons, h]
  · by_cases h : s.status == "active" <;>
      simp [categoryBreakdown, List.filter_cons, h, bumpCat]

/-- C2 counterexample: an active subscription with cost 10 and the
unrecognized billing cycle "biweekly" contributes 0 to the overview
monthlyTotal but its categoryBreakdown bucket sums to 10 — not the 0 the
claim requires of every aggregation path. -/
theorem claim_C2_counterexample :
    monthlyTotal [subBadCycle] = 0 ∧
    analyticsCategoryBreakdown [subBadCycle] =
      [{ category := "media", count := 1, monthlyTotal := 10 }] ∧
    (10 : ℚ) ≠ 0 := by
  refine ⟨?_, ?_, by norm_num⟩
  · simp [monthlyTotal_eq_sum, subBadCycle, monthlyEquivalent]
  · have hg : categoryBreakdown [subBadCycle] =
        [{ category := "media", count := 1, totalCost := 10 }] := by
      simp [categoryBreakdown, subBadCycle, bumpCat, catOrOther, catMonthlyCost]
    have hr : round2 (10 : ℚ) = 10 := by norm_num [round2, jsRound]
    simp [analyticsCategoryBreakdown, hg, hr]

/-- C3: the overview monthlyTotal is (the 2-decimal rounding of) the sum of
monthly-equivalents over the subscriptions with status "active" only — a
subscription of any other status contributes nothing — and yearlyTotal is
computed as monthlyTotal × 12; on one active monthly subscription of cost
15.99 plus one active yearly subscription of cost 120.00 the emitted totals
are 25.99 and 311.88. -/
theorem claim_C3 :
    (∀ (subs : List Subscription) (spent : Option ℚ),
      (analyticsOverview subs spent).monthlyTotal =
        round2 (((subs.filter fun s => s.status == "active").map
          fun s => monthlyEquivalent s.cost s.billingCycle).sum) ∧
      yearlyTotal subs = monthlyTotal subs * 12 ∧
      (analyticsOverview subs spent).yearlyTotal = round2 (monthlyTotal subs * 12)) ∧
    (∀ (s : Subscription) (subs : List Subscription),
      monthlyTotal (s :: subs) =
        (if s.status == "active" then monthlyEquivalent s.cost s.billingCycle else 0) +
          monthlyTotal subs) ∧
    (analyticsOverview exampleSubs none).monthlyTotal = 25.99 ∧
    (analyticsOverview exampleSubs none).yearlyTotal = 311.88 := by
  have hm : monthlyTotal exampleSubs = 25.99 := by
    simp [monthlyTotal_eq_sum, exampleSubs, subMonthly, subYearly, monthlyEquivalent]
    norm_num
  refine ⟨fun subs spent => ⟨?_, rfl, rfl⟩, fun s subs => ?_, ?_, ?_⟩
  · show round2 (monthlyTotal subs) = _
    rw [monthlyTotal_eq_sum]
  · by_cases h : s.status == "active" <;>
      simp [monthlyTotal_eq_sum, List.filter_cons, h]
  · show round2 (monthlyTotal exampleSubs) = 25.99
    rw [hm]; norm_num [round2, jsRound]
  · show round2 (yearlyTotal exampleSubs) = 311.88
    unfold yearlyTotal
    rw [hm]; norm_num [round2, jsRound]

/-- C4 (amended): the emitted monthlyTotal, yearlyTotal,
upcomingRenewals.totalCost and every categoryBreakdown.monthlyTotal are the
2-decimal rounding of their exact (unrounded) underlying sums — no rounding
is applied to any intermediate sum — but overview.totalSpent is emitted as
the raw transaction sum (`_sum.amount || 0`) with no rounding at all. -/
theorem claim_C4 :
    (∀ (subs : List Subscription) (spent : Option ℚ),
      (analyticsOverview subs spent).monthlyTotal = round2 (monthlyTotal subs) ∧
      (analyticsOverview subs spent).yearlyTotal = round2 (monthlyTotal subs * 12)) ∧
    (∀ (subs : List Subscription) (now : ℤ),
      (analyticsUpcoming subs now).totalCost =
        round2 (((upcomingRenewals subs now).map fun s => s.cost).sum)) ∧
    (∀ subs : List Subscription,
      (analyticsCategoryBreakdown subs).Perm
        ((categoryBreakdown subs).map fun g =>
          { category := g.category, count := g.count, monthlyTotal := round2 g.totalCost })) ∧
    (∀ (subs : List Subscription) (q : ℚ), (analyticsOverview subs (some q)).totalSpent = q) ∧
    (∀ subs : List Subscription, (analyticsOverview subs none).totalSpent = 0) := by
  refine ⟨fun subs spent => ⟨rfl, rfl⟩, fun subs now => ?_, fun subs => ?_, fun subs q => ?_,
    fun subs => rfl⟩
  · show round2 (upcomingRenewalCosts subs now) = _
    unfold upcomingRenewalCosts
    rw [foldl_add_map]
    simp only [zero_add]
  · exact List.mergeSort_perm _ _
  · show (if q == 0 then 0 else q) = q
    rcases eq_or_ne q 0 with h | h <;> simp [h]

/-- C4 counterexample: a completed-transaction sum of 10.005 is emitted as
`overview.totalSpent = 10.005` unrounded, while 2-decimal rounding would
emit 10.01 — so not every emitted monetary aggregate is rounded. -/
theorem claim_C4_counterexample :
    (analyticsOverview [] (some 10.005)).totalSpent = 10.005 ∧
    round2 10.005 = 10.01 ∧
    (10.005 : ℚ) ≠ 10.01 := by
  refine ⟨?_, by norm_num [round2, jsRound], by norm_num⟩
  show (if (10.005 : ℚ) == 0 then 0 else (10.005 : ℚ)) = 10.005
  norm_num

/-- C5: `upcomingRenewals` holds exactly the subscriptions with status
"active" whose nextBillingDate lies in the inclusive window
[now, now + 30 days] — one with nextBillingDate = now is included, one at
now + 31 days is excluded — sorted ascending by nextBillingDate, and the
emitted totalCost is the 2-decimal rounding of the sum of their raw costs
(not monthly-normalized). -/
theorem claim_C5 :
    (∀ (subs : List Subscription) (now : ℤ) (s : Subscription),
      s ∈ upcomingRenewals subs now ↔
        s ∈ subs ∧ s.status = "active" ∧ now ≤ s.nextBillingDate ∧
          s.nextBillingDate ≤ now + 30 * 86400000) ∧
    (∀ (subs : List Subscription) (now : ℤ),
      (upcomingRenewals subs now).Pairwise
        fun a b => a.nextBillingDate ≤ b.nextBillingDate) ∧
    (∀ (subs : List Subscription) (now : ℤ),
      (analyticsUpcoming subs now).totalCost =
        round2 (((upcomingRenewals subs now).map fun s => s.cost).sum) ∧
      (analyticsUpcoming subs now).count = (upcomingRenewals subs now).length ∧
      (analyticsUpcoming subs now).renewals = upcomingRenewals subs now) ∧
    subAtNow ∈ upcomingRenewals [subAtNow, subAt31Days] 0 ∧
    subAt31Days ∉ upcomingRenewals [subAtNow, subAt31Days] 0 := by
  have hwin : upcomingWindowMs = 30 * 86400000 := by norm_num [upcomingWindowMs]
  have hmem : ∀ (subs : List Subscription) (now : ℤ) (s : Subscription),
      s ∈ upcomingRenewals subs now ↔
        s ∈ subs ∧ s.status = "active" ∧ now ≤ s.nextBillingDate ∧
          s.nextBillingDate ≤ now + 30 * 86400000 := by
    intro subs now s
    rw [← hwin]
    simp [upcomingRenewals, List.mem_mergeSort, List.mem_filter, and_assoc]
  refine ⟨hmem, fun subs now => ?_, fun subs now => ?_, ?_, ?_⟩
  · have hs := @List.sorted_mergeSort Subscription
      (fun a b : Subscription => decide (a.nextBillingDate ≤ b.nextBillingDate))
      (fun a b c hab hbc => by
        simp only [decide_eq_true_eq] at *
        omega)
      (fun a b => by
        simp only [Bool.or_eq_true, decide_eq_true_eq]
        omega)
      (subs.filter fun s =>
        s.status == "active" && now ≤ s.nextBillingDate &&
          s.nextBillingDate ≤ now + upcomingWindowMs)
    exact hs.imp fun h => by simpa using h
  · refine ⟨?_, rfl, rfl⟩
    show round2 (upcomingRenewalCosts subs now) = _
    unfold upcomingRenewalCosts
    rw [foldl_add_map]
    simp only [zero_add]
  · rw [hmem]
    refine ⟨by decide, by decide, by decide, by decide⟩
  · rw [hmem]
    intro h
    have := h.2.2.2
    revert this
    decide

theorem dedupFirst_cons (c : String) (cs : List String) :
    dedupFirst (c :: cs) = c :: dedupFirst (cs.filter fun d => !(d == c)) := by
  rw [dedupFirst]

theorem mem_of_mem_dedupFirst (x : String) (l : List String) (h : x ∈ dedupFirst l) : x ∈ l := by
  suffices H : ∀ (n : Nat) (l : List String), l.length = n → x ∈ dedupFirst l → x ∈ l from
    H l.length l rfl h
  intro n
  induction n using Nat.strong_induction_on with
  | _ n ih =>
    intro l hn hx
    match l with
    | [] => simp [dedupFirst] at hx
    | c :: cs =>
      rw [dedupFirst_cons] at hx
      rcases List.mem_cons.mp hx with h' | h'
      · simp [h']
      · have hlen : (cs.filter fun d => !(d == c)).length < n := by
          subst hn
          exact Nat.lt_succ_of_le (List.length_filter_le _ _)
        exact List.mem_cons_of_mem _ (List.mem_of_mem_filter (ih _ hlen _ rfl h'))

theorem dedupFirst_nodup (l : List String) : (dedupFirst l).Nodup := by
  suffices H : ∀ (n : Nat) (l : List String), l.length = n → (dedupFirst l).Nodup from
    H l.length l rfl
  intro n
  induction n using Nat.strong_induction_on with
  | _ n ih =>
    intro l hn
    match l with
    | [] => simp [dedupFirst]
    | c :: cs =>
      rw [dedupFirst_cons]
      refine List.nodup_cons.mpr ⟨fun hc => ?_, ?_⟩
      · have h2 := List.of_mem_filter (mem_of_mem_dedupFirst _ _ hc)
        simp at h2
      · have hlen : (cs.filter fun d => !(d == c)).length < n := by
          subst hn
          exact Nat.lt_succ_of_le (List.length_filter_le _ _)
        exact ih _ hlen _ rfl

theorem cntCat_cons (c c' : String) (m : ℚ) (ps : List (String × ℚ)) :
    cntCat c ((c', m) :: ps) = if c' == c then cntCat c ps + 1 else cntCat c ps := by
  by_cases h : c' == c <;> simp [cntCat, List.filter_cons, h]

theorem sumCat_cons (c c' : String) (m : ℚ) (ps : List (String × ℚ)) :
    sumCat c ((c', m) :: ps) = if c' == c then m + sumCat c ps else sumCat c ps := by
  by_cases h : c' == c <;> simp [sumCat, List.filter_cons, h]

theorem filter_map_fst (q : String → Bool) (l : List (String × ℚ)) :
    (l.filter fun p => q p.1).map Prod.fst = (l.map Prod.fst).filter q := by
  induction l with
  | nil => rfl
  | cons a l ih => by_cases h : q a.1 <;> simp [List.filter_cons, h, ih]

theorem cntCat_filter (c : String) (q : String × ℚ → Bool) (l : List (String × ℚ))
    (hq : ∀ p ∈ l, p.1 = c → q p = true) : cntCat c (l.filter q) = cntCat c l := by
  unfold cntCat
  rw [List.filter_filter]
  congr 1
  apply List.filter_congr
  intro p hp
  by_cases h : p.1 == c
  · have := hq p hp (by simpa using h)
    simp [h, this]
  · simp [h]

theorem sumCat_filter (c : String) (q : String × ℚ → Bool) (l : List (String × ℚ))
    (hq : ∀ p ∈ l, p.1 = c → q p = true) : sumCat c (l.filter q) = sumCat c l := by
  unfold sumCat
  rw [List.filter_filter]
  congr 2
  apply List.filter_congr
  intro p hp
  by_cases h : p.1 == c
  · have := hq p hp (by simpa using h)
    simp [h, this]
  · simp [h]

theorem groupSpec_cons (c : String) (m : ℚ) (l : List (String × ℚ)) :
    groupSpec ((c, m) :: l) =
      { category := c, count := cntCat c l + 1, totalCost := m + sumCat c l } ::
        groupSpec (l.filter fun p => !(p.1 == c)) := by
  unfold groupSpec
  rw [List.map_cons, dedupFirst_cons, List.map_cons]
  dsimp only
  congr 1
  · rw [cntCat_cons, sumCat_cons]
    simp
  · rw [← filter_map_fst]
    apply List.map_congr_left
    intro c' hc'
    have hmem := mem_of_mem_dedupFirst _ _ hc'
    have hnec : c' ≠ c := by
      rcases List.mem_map.mp hmem with ⟨p, hpf, rfl⟩
      have := List.of_mem_filter hpf
      simpa using this
    have hcnt : cntCat c' ((c, m) :: l) = cntCat c' l := by
      rw [cntCat_cons, if_neg]
      simpa using fun h => hnec h.symm
    have hsum : sumCat c' ((c, m) :: l) = sumCat c' l := by
      rw [sumCat_cons, if_neg]
      simpa using fun h => hnec h.symm
    have hcnt2 : cntCat c' (l.filter fun p => !(p.1 == c)) = cntCat c' l :=
      cntCat_filter _ _ _ fun p _ hp => by simp [hp, hnec]
    have hsum2 : sumCat c' (l.filter fun p => !(p.1 == c)) = sumCat c' l :=
      sumCat_filter _ _ _ fun p _ hp => by simp [hp, hnec]
    rw [hcnt, hsum, hcnt2, hsum2]

theorem beqComm (a b : String) : (a == b) = (b == a) := by
  by_cases hab : a = b
  · simp [hab]
  · simp [hab, Ne.symm hab]

theorem foldl_bumpCat_eq (ps : List (String × ℚ)) :
    ∀ acc : List CatAcc,
      ps.foldl (fun a p => bumpCat a p.1 p.2) acc =
        acc.map (fun e =>
          { category := e.category, count := e.count + cntCat e.category ps,
            totalCost := e.totalCost + sumCat e.category ps })
        ++ groupSpec (ps.filter fun p => !(acc.any fun e => e.category == p.1)) := by
  induction ps with
  | nil =>
    intro acc
    have hfun : (fun e : CatAcc =>
        ({ category := e.category, count := e.count + cntCat e.category [],
           totalCost := e.totalCost + sumCat e.category [] } : CatAcc)) = fun e => e := by
      funext e
      simp [cntCat, sumCat]
    simp [hfun, groupSpec, dedupFirst]
  | cons p rest ih =>
    obtain ⟨c, m⟩ := p
    intro acc
    rw [List.foldl_cons, ih (bumpCat acc c m)]
    by_cases h : (acc.any fun e => e.category == c) = true
    · -- the bucket exists: the matching entry is updated in place
      rw [bumpCat, if_pos h]
      have hkeys : ∀ x : String,
          ((acc.map fun e =>
            if e.category == c then
              { e with count := e.count + 1, totalCost := e.totalCost + m }
            else e).any fun e => e.category == x) = (acc.any fun e => e.category == x) := by
        intro x
        rw [List.any_map]
        have hcomp : ((fun e : CatAcc => e.category == x) ∘ fun e =>
            if e.category == c then
              { e with count := e.count + 1, totalCost := e.totalCost + m }
            else e) = fun e : CatAcc => e.category == x := by
          funext e
          by_cases he : e.category = c <;> simp [he]
        rw [hcomp]
      have hfilter :
          (rest.filter fun p => !((acc.map fun e =>
            if e.category == c then
              { e with count := e.count + 1, totalCost := e.totalCost + m }
            else e).any fun e => e.category == p.1)) =
          (rest.filter fun p => !(acc.any fun e => e.category == p.1)) := by
        apply List.filter_congr
        intro p _
        rw [hkeys]
      have hright :
          (((c, m) :: rest).filter fun p => !(acc.any fun e => e.category == p.1)) =
            rest.filter fun p => !(acc.any fun e => e.category == p.1) := by
        rw [List.filter_cons, if_neg]
        simp [h]
      rw [hfilter, hright, List.map_map]
      congr 1
      apply List.map_congr_left
      intro e _
      by_cases he : (e.category == c) = true
      · have hcc : (c == e.category) = true := by
          rw [beqComm]
          exact he
        simp only [Function.comp_apply]
        rw [if_pos he, cntCat_cons, sumCat_cons, if_pos hcc, if_pos hcc]
        simp only [CatAcc.mk.injEq, true_and]
        exact ⟨by omega, by ring⟩
      · have hcc : ¬(c == e.category) = true := by
          rw [beqComm]
          exact he
        simp only [Function.comp_apply]
        rw [if_neg he, cntCat_cons, sumCat_cons, if_neg hcc, if_neg hcc]
    · -- new bucket: appended at the end with count 1 and total m
      rw [bumpCat, if_neg h]
      have hfalse : (acc.any fun e => e.category == c) = false := by
        simpa using h
      have hmemfalse := List.any_eq_false.mp hfalse
      have hq : (rest.filter fun p =>
          !((acc ++ [({ category := c, count := 1, totalCost := m } : CatAcc)]).any
            fun e => e.category == p.1)) =
          rest.filter fun p =>
            (!(acc.any fun e => e.category == p.1)) && !(c == p.1) := by
        apply List.filter_congr
        intro p _
        rw [List.any_append]
        simp [Bool.not_or]
      have hright :
          (((c, m) :: rest).filter fun p => !(acc.any fun e => e.category == p.1)) =
            (c, m) :: rest.filter fun p => !(acc.any fun e => e.category == p.1) := by
        rw [List.filter_cons, if_pos]
        simp [hfalse]
      rw [hq, hright, groupSpec_cons, List.map_append]
      have hqrestrict : ∀ p ∈ rest, p.1 = c →
          (!(acc.any fun e => e.category == p.1)) = true := by
        intro p _ hp
        rw [hp, hfalse]
        rfl
      have hcnt : cntCat c (rest.filter fun p => !(acc.any fun e => e.category == p.1)) =
          cntCat c rest := cntCat_filter _ _ _ hqrestrict
      have hsum : sumCat c (rest.filter fun p => !(acc.any fun e => e.category == p.1)) =
          sumCat c rest := sumCat_filter _ _ _ hqrestrict
      have htails :
          ((rest.filter fun p => !(acc.any fun e => e.category == p.1)).filter
            fun p => !(p.1 == c)) =
          rest.filter fun p => (!(acc.any fun e => e.category == p.1)) && !(c == p.1) := by
        rw [List.filter_filter]
        apply List.filter_congr
        intro p _
        rw [beqComm c p.1]
        exact Bool.and_comm _ _
      have hheads : acc.map (fun e =>
          ({ category := e.category, count := e.count + cntCat e.category rest,
             totalCost := e.totalCost + sumCat e.category rest } : CatAcc)) =
          acc.map (fun e =>
          ({ category := e.category, count := e.count + cntCat e.category ((c, m) :: rest),
             totalCost := e.totalCost + sumCat e.category ((c, m) :: rest) } : CatAcc)) := by
        apply List.map_congr_left
        intro e hea
        have hne : ¬(c == e.category) = true := by
          rw [beqComm]
          exact hmemfalse e hea
        rw [cntCat_cons, sumCat_cons, if_neg hne, if_neg hne]
      rw [hcnt, hsum, htails, hheads, List.append_assoc]
      congr 1
      simp only [List.map_cons, List.map_nil, List.singleton_append]
      congr 1
      simp only [CatAcc.mk.injEq, true_and, and_true]
      omega

theorem categoryBreakdown_eq (subs : List Subscription) :
    categoryBreakdown subs =
      groupSpec ((subs.filter fun s => s.status == "active").map catPair) := by
  unfold categoryBreakdown
  rw [show (fun (acc : List CatAcc) (s : Subscription) =>
      bumpCat acc (catOrOther s.category) (catMonthlyCost s)) =
      (fun acc s => bumpCat acc (catPair s).1 (catPair s).2) from rfl]
  rw [← List.foldl_map (f := catPair) (g := fun a p => bumpCat a p.1 p.2)]
  rw [foldl_bumpCat_eq _ []]
  simp [groupSpec]

theorem groupSpec_keys (ps : List (String × ℚ)) :
    (groupSpec ps).map (fun e => e.category) = dedupFirst (ps.map Prod.fst) := by
  unfold groupSpec
  rw [List.map_map]
  have : ((fun e : CatAcc => e.category) ∘ fun c =>
      ({ category := c, count := cntCat c ps, totalCost := sumCat c ps } : CatAcc)) = id := rfl
  rw [this, List.map_id]

theorem mem_groupSpec (ps : List (String × ℚ)) (e : CatAcc) (he : e ∈ groupSpec ps) :
    e.count = cntCat e.category ps ∧ e.totalCost = sumCat e.category ps := by
  unfold groupSpec at he
  rcases List.mem_map.mp he with ⟨c, _, rfl⟩
  exact ⟨rfl, rfl⟩

theorem cntCat_catPairs (c : String) (l : List Subscription) :
    cntCat c (l.map catPair) = (l.filter fun s => catOrOther s.category == c).length := by
  unfold cntCat
  induction l with
  | nil => rfl
  | cons s l ih =>
    by_cases h : catOrOther s.category == c <;>
      simp [catPair, List.filter_cons, h, ih]

theorem sumCat_catPairs (c : String) (l : List Subscription) :
    sumCat c (l.map catPair) =
      ((l.filter fun s => catOrOther s.category == c).map catMonthlyCost).sum := by
  unfold sumCat
  induction l with
  | nil => rfl
  | cons s l ih =>
    by_cases h : catOrOther s.category == c <;>
      simp [catPair, List.filter_cons, h, ih]

/-- C6: categoryBreakdown groups the active subscriptions by category with
empty/missing categories in the "other" bucket; the bucket list is built in
first-encounter order; every emitted bucket carries the count and the
(rounded) sum of the monthly-equivalents of its members; the emitted list is
sorted descending by rounded monthly total; and the sort is stable — within
every tie class the emitted order is exactly the first-encounter order of
the buckets.  (The hypothesis restricts to recognized billing cycles, where
the switch agrees with BillingNormalizer; see C2 for the divergence on
unrecognized cycles.) -/
theorem claim_C6 (subs : List Subscription)
    (h : subs.all (fun s => validCycles.contains s.billingCycle) = true) :
    ((categoryBreakdown subs).map (fun e => e.category) =
      dedupFirst ((subs.filter fun s => s.status == "active").map
        fun s => catOrOther s.category)) ∧
    (∀ e ∈ analyticsCategoryBreakdown subs,
      e.count = ((subs.filter fun s => s.status == "active").filter
        fun s => catOrOther s.category == e.category).length ∧
      e.monthlyTotal = round2 ((((subs.filter fun s => s.status == "active").filter
        fun s => catOrOther s.category == e.category).map
          fun s => monthlyEquivalent s.cost s.billingCycle).sum)) ∧
    ((analyticsCategoryBreakdown subs).Pairwise fun a b => b.monthlyTotal ≤ a.monthlyTotal) ∧
    (∀ q : ℚ,
      (analyticsCategoryBreakdown subs).filter (fun e => decide (e.monthlyTotal = q)) =
        ((categoryBreakdown subs).map fun g =>
          ({ category := g.category, count := g.count, monthlyTotal := round2 g.totalCost } :
            CatEntry)).filter fun e => decide (e.monthlyTotal = q)) ∧
    catOrOther none = "other" ∧ catOrOther (some "") = "other" := by
  have hcycles : ∀ s ∈ subs, s.billingCycle ∈ validCycles := by
    intro s hs
    have hc := List.all_eq_true.mp h s hs
    simpa using hc
  have htrans : ∀ a b c : CatEntry,
      (fun a b : CatEntry => decide (b.monthlyTotal ≤ a.monthlyTotal)) a b →
      (fun a b : CatEntry => decide (b.monthlyTotal ≤ a.monthlyTotal)) b c →
      (fun a b : CatEntry => decide (b.monthlyTotal ≤ a.monthlyTotal)) a c := by
    intro a b c hab hbc
    simp only [decide_eq_true_eq] at *
    exact le_trans hbc hab
  have htotal : ∀ a b : CatEntry,
      ((fun a b : CatEntry => decide (b.monthlyTotal ≤ a.monthlyTotal)) a b ||
       (fun a b : CatEntry => decide (b.monthlyTotal ≤ a.monthlyTotal)) b a) = true := by
    intro a b
    simp only [Bool.or_eq_true, decide_eq_true_eq]
    exact le_total _ _
  refine ⟨?_, ?_, ?_, ?_, rfl, by decide⟩
  · rw [categoryBreakdown_eq, groupSpec_keys]
    congr 1
    rw [List.map_map]
    rfl
  · intro e he
    have he' : e ∈ (categoryBreakdown subs).map fun g =>
        ({ category := g.category, count := g.count, monthlyTotal := round2 g.totalCost } :
          CatEntry) := by
      rw [analyticsCategoryBreakdown] at he
      exact List.mem_mergeSort.mp he
    rcases List.mem_map.mp he' with ⟨g, hg, rfl⟩
    rw [categoryBreakdown_eq] at hg
    obtain ⟨hcnt, hsum⟩ := mem_groupSpec _ _ hg
    dsimp only
    constructor
    · rw [hcnt, cntCat_catPairs]
    · rw [hsum, sumCat_catPairs]
      congr 2
      apply List.map_congr_left
      intro s hs
      exact catMonthlyCost_known s
        (hcycles s (List.mem_of_mem_filter (List.mem_of_mem_filter hs)))
  · have hs := @List.sorted_mergeSort CatEntry
      (fun a b : CatEntry => decide (b.monthlyTotal ≤ a.monthlyTotal)) htrans htotal
      ((categoryBreakdown subs).map fun g =>
        ({ category := g.category, count := g.count, monthlyTotal := round2 g.totalCost } :
          CatEntry))
    exact hs.imp fun hx => by simpa using hx
  · intro q
    have hP : ∀ e ∈ ((categoryBreakdown subs).map fun g =>
        ({ category := g.category, count := g.count, monthlyTotal := round2 g.totalCost } :
          CatEntry)).filter (fun e => decide (e.monthlyTotal = q)),
        e.monthlyTotal = q := by
      intro e hee
      exact of_decide_eq_true (List.mem_filter.mp hee).2
    have h2 : (((categoryBreakdown subs).map fun g =>
        ({ category := g.category, count := g.count, monthlyTotal := round2 g.totalCost } :
          CatEntry)).filter (fun e => decide (e.monthlyTotal = q))).Pairwise
        (fun a b => (fun a b : CatEntry => decide (b.monthlyTotal ≤ a.monthlyTotal)) a b) := by
      apply List.pairwise_of_forall_mem_list
      intro a ha b hb
      simp [hP a ha, hP b hb]
    have h3 := List.sublist_mergeSort htrans htotal h2 (List.filter_sublist _)
    have h4 := h3.filter (fun e => decide (e.monthlyTotal = q))
    rw [List.filter_filter] at h4
    simp only [Bool.and_self] at h4
    have h5 := (List.mergeSort_perm ((categoryBreakdown subs).map fun g =>
        ({ category := g.category, count := g.count, monthlyTotal := round2 g.totalCost } :
          CatEntry)) (fun a b : CatEntry => decide (b.monthlyTotal ≤ a.monthlyTotal))).filter
      (fun e => decide (e.monthlyTotal = q))
    exact (h4.eq_of_length h5.length_eq.symm).symm

/-- C6 witness: two active monthly cost-10 subscriptions in categories
"music" then "video" — a categoryBreakdown tie: the hypothesis holds, the
bucket keys are in first-encounter order, the output is sorted, and the two
tied buckets are emitted in the order their categories were first
encountered. -/
theorem claim_C6_witness :
    (tieSubs.all (fun s => validCycles.contains s.billingCycle) = true) ∧
    ((categoryBreakdown tieSubs).map (fun e => e.category) =
      dedupFirst ((tieSubs.filter fun s => s.status == "active").map
        fun s => catOrOther s.category)) ∧
    ((analyticsCategoryBreakdown tieSubs).Pairwise fun a b => b.monthlyTotal ≤ a.monthlyTotal) ∧
    analyticsCategoryBreakdown tieSubs =
      [{ category := "music", count := 1, monthlyTotal := 10 },
       { category := "video", count := 1, monthlyTotal := 10 }] := by
  have hall : tieSubs.all (fun s => validCycles.contains s.billingCycle) = true := by decide
  have hg : categoryBreakdown tieSubs =
      [{ category := "music", count := 1, totalCost := 10 },
       { category := "video", count := 1, totalCost := 10 }] := by
    simp [categoryBreakdown, tieSubs, bumpCat, catOrOther, catMonthlyCost]
  have hr : round2 (10 : ℚ) = 10 := by norm_num [round2, jsRound]
  have hconc : analyticsCategoryBreakdown tieSubs =
      [{ category := "music", count := 1, monthlyTotal := 10 },
       { category := "video", count := 1, monthlyTotal := 10 }] := by
    rw [analyticsCategoryBreakdown, hg]
    simp only [List.map_cons, List.map_nil, hr]
    apply List.mergeSort_of_sorted
    simp
  exact ⟨hall, (claim_C6 tieSubs hall).1, (claim_C6 tieSubs hall).2.2.1, hconc⟩
